import Mathlib

/-!
Shallow embedding of `rmgpy/qm/gaussian.py` (Gaussian QM orchestration for RMG).

The embedding models:
  * `Gaussian.verifyOutputFile` — the output-file verifier (failure markers,
    success markers, InChI identity matching, and the dead
    `checkForInChiKeyCollision` call after the `return` in the mismatch branch);
  * `Gaussian.parse` — effective multiplicity computation;
  * `GaussianMolPM3.keywords` / `scriptAttempts` / `maxAttempts` /
    `inputFileKeywords` — the keyword-escalation policy, with Python list
    indexing semantics (negative indices wrap from the end) and the
    `assert attempt <= self.maxAttempts` precondition;
  * `GaussianMol.generateQMData` — the cached-check / retry orchestrator,
    with the external solver run abstracted as a boolean oracle per attempt
    and the performed side effects recorded as an event trace.

Files are modelled as `Option (List String)` (`none` = the output path does
not exist; `some lines` = its lines).  String primitives (`strip`,
`startswith`, substring containment) are implemented as executable functions
on character lists, mirroring the Python methods used by the source.
-/

/-- Character-list prefix test: `pfxChars p l` is `true` iff `p` is a prefix
of `l`.  Used to mirror Python `str.startswith`. -/
def pfxChars : List Char → List Char → Bool
  | [], _ => true
  | _ :: _, [] => false
  | a :: as, b :: bs => a == b && pfxChars as bs

/-- Python `needle in hay` on character lists: `true` iff `n` occurs as a
contiguous infix of `h` (the empty needle is contained in everything). -/
def infixChars (n : List Char) : List Char → Bool
  | [] => n.isEmpty
  | b :: bs => pfxChars n (b :: bs) || infixChars n bs

/-- Python `haystack.__contains__(needle)`, i.e. `needle in hay`. -/
def containsSub (needle hay : String) : Bool :=
  infixChars needle.data hay.data

/-- Python `s.startswith(pre)`. -/
def strStartsWith (s pre : String) : Bool :=
  pfxChars pre.data s.data

/-- Python `s.strip()`: drop leading and trailing whitespace. -/
def strTrim (s : String) : String :=
  ⟨((s.data.dropWhile Char.isWhitespace).reverse.dropWhile Char.isWhitespace).reverse⟩

namespace Gaussian

/-- `Gaussian.failureKeys`: phrases that indicate failure; none may be present
in a successful job. -/
def failureKeys : List String :=
  ["ERROR TERMINATION",
   "IMAGINARY FREQUENCIES"]

/-- `Gaussian.successKeys`: phrases that indicate success; all must be present
in a successful job. -/
def successKeys : List String :=
  ["Normal termination of Gaussian"]

/-- The mutable locals of the scanning loop in `Gaussian.verifyOutputFile`:
the `successKeysFound` dictionary (kept as an association list in the key
order of `successKeys`), the `InChIMatch` and `InChIFound` flags, and the
last captured `logFileInChI` line (`""` before any is found). -/
structure ScanState where
  successKeysFound : List (String × Bool)
  InChIMatch : Bool
  InChIFound : Bool
  logFileInChI : String
  deriving Repr, DecidableEq

/-- Loop state before the first line: every success key maps to `False`,
both flags are `False`. -/
def initState : ScanState :=
  ⟨successKeys.map (fun key => (key, false)), false, false, ""⟩

/-- One iteration of the `for line in outputFile` loop of
`Gaussian.verifyOutputFile`: strip the line; return `none` when a failure
key occurs in it (the Python `return False` short-circuit); otherwise mark
the success keys contained in the line and process a leading `"InChI="`
capture exactly as the source's `if/elif/else` chain does. -/
def processLine (uniqueIDlong : String) (st : ScanState) (rawLine : String) :
    Option ScanState :=
  let line := strTrim rawLine
  if failureKeys.any (fun element => containsSub element line) then
    none
  else
    let found := st.successKeysFound.map
      (fun kv => (kv.1, kv.2 || containsSub kv.1 line))
    if strStartsWith line "InChI=" then
      if line == uniqueIDlong then
        some ⟨found, true, true, line⟩
      else if strStartsWith uniqueIDlong line then
        some ⟨found, true, true, line⟩
      else
        some ⟨found, st.InChIMatch, true, line⟩
    else
      some ⟨found, st.InChIMatch, st.InChIFound, st.logFileInChI⟩

/-- The whole scanning loop: fold `processLine` over the file's lines,
stopping with `none` at the first failure-marker line. -/
def scanLines (uniqueIDlong : String) : ScanState → List String → Option ScanState
  | st, [] => some st
  | st, line :: rest =>
    match processLine uniqueIDlong st line with
    | none => none
    | some st₂ => scanLines uniqueIDlong st₂ rest

/-- Outcome of `Gaussian.verifyOutputFile`: either a returned boolean, or the
(unimplemented) `checkForInChiKeyCollision` call on the captured log-file
InChI.  The latter constructor exists to model the source line that follows
the `return False` of the mismatch branch. -/
inductive VerifyResult where
  | done (b : Bool)
  | collisionCheck (logFileInChI : String)
  deriving Repr, DecidableEq

/-- Whether a `VerifyResult` is the collision-resolution call. -/
def VerifyResult.isCollision : VerifyResult → Bool
  | .done _ => false
  | .collisionCheck _ => true

/-- First executed `return` of a straight-line statement sequence, where each
statement either returns (`some r`) or falls through (`none`). -/
def firstSome {α : Type} : List (Option α) → Option α
  | [] => none
  | some x :: _ => some x
  | none :: rest => firstSome rest

/-- The statement sequence after the scanning loop of
`Gaussian.verifyOutputFile`, in source order: the all-success-keys check, the
`InChIFound` check, the `if InChIMatch ... else ...` (both branches return),
and finally the `return self.checkForInChiKeyCollision(logFileInChI)` line
that stands after a `return` in the source. -/
def tailStatements (st : ScanState) : List (Option VerifyResult) :=
  [if !(st.successKeysFound.all (fun kv => kv.2)) then some (.done false) else none,
   if !st.InChIFound then some (.done false) else none,
   some (if st.InChIMatch then .done true else .done false),
   some (.collisionCheck st.logFileInChI)]

/-- `Gaussian.verifyOutputFile`, with the returned value kept as a
`VerifyResult` so that the dead collision-check line is represented.
`outputFile = none` models a missing file at `outputFilePath`;
`uniqueIDlong` is `self.geometry.uniqueIDlong`. -/
def verifyOutputFileR (outputFile : Option (List String)) (uniqueIDlong : String) :
    VerifyResult :=
  match outputFile with
  | none => .done false
  | some lines =>
    match scanLines uniqueIDlong initState lines with
    | none => .done false
    | some st => (firstSome (tailStatements st)).getD (.done false)

/-- `Gaussian.verifyOutputFile` as the boolean verdict the callers observe.
The `collisionCheck` branch is dead code in the source (it follows a
`return`, and `checkForInChiKeyCollision` is marked "Not yet implemented!");
it is mapped to `false` here and proved unreachable below. -/
def verifyOutputFile (outputFile : Option (List String)) (uniqueIDlong : String) :
    Bool :=
  match verifyOutputFileR outputFile uniqueIDlong with
  | .done b => b
  | .collisionCheck _ => false

/-- An atom of the molecule, as consumed by `Gaussian.parse`: only its
radical-electron count matters here. -/
structure Atom where
  radicalElectrons : Nat
  deriving Repr, DecidableEq

/-- The `CCLibData` result bundle built by `Gaussian.parse`.  The class
itself lives in the external `qmdata` module (not part of this source file);
per the spec its second constructor argument is the effective multiplicity.
The electronic-structure payload parsed by cclib is kept opaque as `α`. -/
structure CCLibData (α : Type) where
  cclibData : α
  multiplicity : Nat
  deriving Repr, DecidableEq

/-- `Gaussian.parse`: bundle the opaque cclib parse result with
`radicalNumber + 1`, where `radicalNumber` is the sum of the
radical-electron counts over `self.molecule.atoms`. -/
def parse {α : Type} (cclibData : α) (atoms : List Atom) : CCLibData α :=
  let radicalNumber := (atoms.map (fun i => i.radicalElectrons)).sum
  ⟨cclibData, radicalNumber + 1⟩

end Gaussian

namespace GaussianMolPM3

/-- `GaussianMolPM3.keywords`: the ordered keyword templates added at the top
of the QM input file.  (`GaussianReactionPM3` carries a character-for-character
identical table.)  Note that entries 13 and 14 (0-based) are identical. -/
def keywords : List String :=
  ["# pm3 opt=(verytight,gdiis) freq IOP(2/16=3)",
   "# pm3 opt=(verytight,gdiis) freq IOP(2/16=3) IOP(4/21=2)",
   "# pm3 opt=(verytight,calcfc,maxcyc=200) freq IOP(2/16=3) nosymm",
   "# pm3 opt=(verytight,calcfc,maxcyc=200) freq=numerical IOP(2/16=3) nosymm",
   "# pm3 opt=(verytight,gdiis,small) freq IOP(2/16=3)",
   "# pm3 opt=(verytight,nolinear,calcfc,small) freq IOP(2/16=3)",
   "# pm3 opt=(verytight,gdiis,maxcyc=200) freq=numerical IOP(2/16=3)",
   "# pm3 opt=tight freq IOP(2/16=3)",
   "# pm3 opt=tight freq=numerical IOP(2/16=3)",
   "# pm3 opt=(tight,nolinear,calcfc,small,maxcyc=200) freq IOP(2/16=3)",
   "# pm3 opt freq IOP(2/16=3)",
   "# pm3 opt=(verytight,gdiis) freq=numerical IOP(2/16=3) IOP(4/21=200)",
   "# pm3 opt=(calcfc,verytight,newton,notrustupdate,small,maxcyc=100,maxstep=100) freq=(numerical,step=10) IOP(2/16=3) nosymm",
   "# pm3 opt=(tight,gdiis,small,maxcyc=200,maxstep=100) freq=numerical IOP(2/16=3) nosymm",
   "# pm3 opt=(tight,gdiis,small,maxcyc=200,maxstep=100) freq=numerical IOP(2/16=3) nosymm",
   "# pm3 opt=(verytight,gdiis,calcall,small,maxcyc=200) IOP(2/16=3) IOP(4/21=2) nosymm",
   "# pm3 opt=(verytight,gdiis,calcall,small) IOP(2/16=3) nosymm",
   "# pm3 opt=(calcall,small,maxcyc=100) IOP(2/16=3)"]

/-- `GaussianMolPM3.scriptAttempts`: `len(self.keywords)`. -/
def scriptAttempts : Nat := keywords.length

/-- `GaussianMolPM3.maxAttempts`: `2 * len(self.keywords)`. -/
def maxAttempts : Nat := 2 * keywords.length

/-- The Python runtime errors `inputFileKeywords` can raise: a failed
`assert` and an out-of-range list subscript. -/
inductive PyError where
  | assertionError
  | indexError
  deriving Repr, DecidableEq

/-- Python list subscription `l[i]`: a negative index counts from the end
(`len(l) + i`); an index that is still out of range raises `IndexError`. -/
def pyGet {α : Type} (l : List α) (i : Int) : Except PyError α :=
  let j : Int := if i < 0 then (l.length : Int) + i else i
  if j < 0 then .error .indexError
  else
    match l.get? j.toNat with
    | some x => .ok x
    | none => .error .indexError

/-- `GaussianMolPM3.inputFileKeywords(attempt)`:
`assert attempt <= self.maxAttempts`; fold `attempt` down by
`scriptAttempts` when it exceeds `scriptAttempts`; then return
`self.keywords[attempt - 1]` with Python indexing semantics. -/
def inputFileKeywords (attempt : Int) : Except PyError String :=
  if attempt ≤ (maxAttempts : Int) then
    let a := if attempt > (scriptAttempts : Int) then attempt - (scriptAttempts : Int)
             else attempt
    pyGet keywords (a - 1)
  else
    .error .assertionError

end GaussianMolPM3

namespace GaussianMol

/-- Observable side effects of one `GaussianMol.generateQMData` call, in
order: the geometry creation, the initial cached-output verification, the
per-attempt input write (`writeInputFile(attempt)`), the per-attempt solver
launch plus verification (`self.run()`), and the final `self.parse()`. -/
inductive QMEvent where
  | createGeometry
  | verifyCached
  | writeInput (attempt : Nat)
  | runAttempt (attempt : Nat)
  | parseCall
  deriving Repr, DecidableEq

/-- Environment of one `generateQMData` call.  The external solver and the
file system are abstracted: `cachedOK` is the verdict of the initial
`verifyOutputFile()` call on any pre-existing output, `runOK n` the verdict
`self.run()` would report for attempt `n` (the run rewrites the output file,
so each attempt may verify differently), `parseResult` the value
`self.parse()` yields, and `inchi` is `self.molecule.toAugmentedInChI()`. -/
structure QMRun where
  cachedOK : Bool
  runOK : Nat → Bool
  maxAttempts : Nat
  inchi : String
  parseResult : Nat

/-- The `for attempt in range(1, self.maxAttempts+1)` loop, started at
`start` with `remaining` iterations left: write the input, run, and stop at
the first successful attempt.  Returns the event trace and whether the loop
ended by `break` (success) rather than by exhaustion. -/
def attemptLoop (runOK : Nat → Bool) (start : Nat) : Nat → List QMEvent × Bool
  | 0 => ([], false)
  | remaining + 1 =>
    let tail := if runOK start then ([], true)
                else attemptLoop runOK (start + 1) remaining
    (QMEvent.writeInput start :: QMEvent.runAttempt start :: tail.1, tail.2)

/-- `GaussianMol.generateQMData`: create the geometry; reuse a pre-existing
verified output if there is one, otherwise run the attempt loop; raise
`Exception('QM thermo calculation failed for ...')` when the loop exhausts
all attempts (the `for`/`else` branch); on success, parse and return. -/
def generateQMData (env : QMRun) : List QMEvent × Except String Nat :=
  if env.cachedOK then
    ([QMEvent.createGeometry, QMEvent.verifyCached, QMEvent.parseCall],
     .ok env.parseResult)
  else
    let loopOut := attemptLoop env.runOK 1 env.maxAttempts
    if loopOut.2 then
      (QMEvent.createGeometry :: QMEvent.verifyCached ::
        (loopOut.1 ++ [QMEvent.parseCall]),
       .ok env.parseResult)
    else
      (QMEvent.createGeometry :: QMEvent.verifyCached :: loopOut.1,
       .error ("QM thermo calculation failed for " ++ env.inchi ++ "."))

/-- The write/run event pairs of attempts `a, a+1, ..., a+n-1`, in order. -/
def cycleEvents (a n : Nat) : List QMEvent :=
  (List.range' a n).flatMap (fun k => [QMEvent.writeInput k, QMEvent.runAttempt k])

/-- Holds of an event iff it is an attempt side effect: an input-file write
or a solver launch. -/
def QMEvent.isAttemptEffect : QMEvent → Bool
  | .writeInput _ => true
  | .runAttempt _ => true
  | _ => false

/-- A sample environment in which the cached output does not verify, attempt
1 fails and attempt 2 succeeds (PM3 attempt budget of 36). -/
def envSecondTry : QMRun :=
  ⟨false, fun n => n == 2, 36, "InChI=1S/C2H6O/c1-2-3;", 7⟩

/-- A sample environment with a verified cached output. -/
def envCached : QMRun :=
  ⟨true, fun _ => false, 36, "InChI=1S/CH4/h1H4", 5⟩

end GaussianMol

open Gaussian GaussianMolPM3 GaussianMol

lemma tail_eval (st : ScanState) :
    (firstSome (tailStatements st)).getD (.done false) =
      if st.successKeysFound.all (fun kv => kv.2) then
        (if st.InChIFound then VerifyResult.done st.InChIMatch else .done false)
      else .done false := by
  unfold tailStatements firstSome
  by_cases h1 : st.successKeysFound.all (fun kv => kv.2)
  · by_cases h2 : st.InChIFound
    · simp only [h1, h2, Bool.not_true, Bool.false_eq_true, if_false, firstSome]
      cases st.InChIMatch <;> rfl
    · simp [h1, h2, firstSome]
  · simp [h1, firstSome]

/-- Claim C8: the identity-collision resolution step (`checkForInChiKeyCollision`)
is never invoked by `verifyOutputFile`: the statement that calls it follows a
`return` in the mismatch branch, so the scan always ends in a plain boolean
verdict. -/
theorem collision_step_unreachable (file : Option (List String)) (uid : String) :
    (verifyOutputFileR file uid).isCollision = false := by
  cases file with
  | none => rfl
  | some lines =>
    simp only [verifyOutputFileR]
    cases h : scanLines uid initState lines with
    | none => rfl
    | some st =>
      show ((firstSome (tailStatements st)).getD (VerifyResult.done false)).isCollision = false
      rw [tail_eval st]
      by_cases h1 : st.successKeysFound.all (fun kv => kv.2) <;>
        by_cases h2 : st.InChIFound <;> simp [h1, h2, VerifyResult.isCollision]

/-- Claim C9: `parse` returns a result whose effective multiplicity is the sum of
the radical-electron counts of the molecule's atoms plus one; in particular
radical counts `[0,0,1,0]` give multiplicity `2`. -/
theorem parse_multiplicity_spec :
    (∀ (d : Nat) (atoms : List Gaussian.Atom),
      (Gaussian.parse d atoms).multiplicity =
        (atoms.map (fun i => i.radicalElectrons)).sum + 1)
    ∧ (Gaussian.parse (0 : Nat) [⟨0⟩, ⟨0⟩, ⟨1⟩, ⟨0⟩]).multiplicity = 2 :=
  ⟨fun _ _ => rfl, rfl⟩

/-- Claim C5, counterexample: `inputFileKeywords 0` does not fail the `assert`
precondition; it returns a keyword template (the last of the table). -/
theorem inputFileKeywords_zero_not_assert :
    inputFileKeywords 0 =
      Except.ok "# pm3 opt=(calcall,small,maxcyc=100) IOP(2/16=3)" := rfl

/-- Claim C5, amended: every attempt in `[1, maxAttempts]` yields a defined
keyword template, and `inputFileKeywords (maxAttempts + 1)` fails the
`assert` precondition; `inputFileKeywords 0`, however, does not fail (see
the wraparound-indexing theorem). -/
theorem inputFileKeywords_bounds :
    (∀ a : Int, 1 ≤ a → a ≤ (maxAttempts : Int) →
      ∃ s, inputFileKeywords a = Except.ok s)
    ∧ inputFileKeywords ((maxAttempts : Int) + 1) =
        Except.error PyError.assertionError := by
  constructor
  · intro a h1 h2
    have hm : (maxAttempts : Int) = 36 := by decide
    rw [hm] at h2
    interval_cases a <;> exact ⟨_, rfl⟩
  · rfl

theorem inputFileKeywords_bounds_witness :
    ∃ s, inputFileKeywords 7 = Except.ok s :=
  inputFileKeywords_bounds.1 7 (by decide) (by decide)

/-- Claim C6: for `scriptAttempts < attempt ≤ maxAttempts` the keyword lookup
wraps around: it reuses the template of `attempt - scriptAttempts`. -/
theorem inputFileKeywords_wraparound (a : Int)
    (h1 : (scriptAttempts : Int) < a) (h2 : a ≤ (maxAttempts : Int)) :
    inputFileKeywords a = inputFileKeywords (a - (scriptAttempts : Int)) := by
  have hs : (scriptAttempts : Int) = 18 := by decide
  have hm : (maxAttempts : Int) = 36 := by decide
  rw [hs] at h1; rw [hm] at h2
  unfold inputFileKeywords
  rw [hs, hm]
  rw [if_pos h2, if_pos (by omega : a - 18 ≤ (36 : Int))]
  rw [if_pos (by omega : a > (18 : Int)), if_neg (by omega : ¬ a - 18 > (18 : Int))]

theorem inputFileKeywords_wraparound_witness :
    inputFileKeywords 20 = inputFileKeywords (20 - (scriptAttempts : Int)) :=
  inputFileKeywords_wraparound 20 (by decide) (by decide)

/-- Claim C7, counterexample: the keyword table contains a duplicated template
(entries 13 and 14 coincide), so it has 17 distinct templates while
`scriptAttempts` returns its length, 18. -/
theorem keywords_duplicate_entry :
    keywords.get? 13 = keywords.get? 14
    ∧ keywords.dedup.length = 17
    ∧ scriptAttempts = 18 :=
  ⟨rfl, by decide, rfl⟩

/-- Claim C7, amended: `scriptAttempts` returns the number of entries of the
keyword table (18, of which only 17 are distinct), and `maxAttempts`
returns exactly twice that. -/
theorem scriptAttempts_maxAttempts_spec :
    scriptAttempts = keywords.length ∧ maxAttempts = 2 * scriptAttempts :=
  ⟨rfl, rfl⟩

/-- Claim C10: the `assert` in `inputFileKeywords` checks only the upper bound, so
attempt `0` does not fail; via Python's negative indexing (`keywords[-1]`)
it returns the last template of the table. -/
theorem inputFileKeywords_zero_wraps :
    ∃ s, keywords.getLast? = some s ∧ inputFileKeywords 0 = Except.ok s :=
  ⟨"# pm3 opt=(calcall,small,maxcyc=100) IOP(2/16=3)", rfl, rfl⟩

/-- Claim C2: on a discovered identity line (a stripped line starting with
`"InChI="`, containing no failure marker), the match outcome follows the
source's `if/elif/else` chain — exact equality matches, a discovered string
that the expected identity starts with (truncation) matches, anything else
leaves the match flag unchanged — and the scan continues (no short-circuit). -/
theorem identityMatch_cases (uid : String) (st : ScanState) (rawLine : String)
    (hpx : strStartsWith (strTrim rawLine) "InChI=" = true)
    (hfail : failureKeys.any (fun e => containsSub e (strTrim rawLine)) = false) :
    ∃ st₂, processLine uid st rawLine = some st₂ ∧
      st₂.InChIFound = true ∧
      st₂.logFileInChI = strTrim rawLine ∧
      st₂.InChIMatch =
        (if strTrim rawLine == uid then true
         else if strStartsWith uid (strTrim rawLine) then true
         else st.InChIMatch) := by
  simp only [processLine]
  rw [hfail]
  simp only [Bool.false_eq_true, if_false, hpx, if_true]
  by_cases he : (strTrim rawLine == uid) = true
  · rw [if_pos he, if_pos he]
    exact ⟨_, rfl, rfl, rfl, rfl⟩
  · rw [if_neg he, if_neg he]
    by_cases hp : strStartsWith uid (strTrim rawLine) = true
    · rw [if_pos hp, if_pos hp]
      exact ⟨_, rfl, rfl, rfl, rfl⟩
    · rw [if_neg hp, if_neg hp]
      exact ⟨_, rfl, rfl, rfl, rfl⟩

theorem identityMatch_cases_witness :
    ∃ st₂, processLine "InChI=1S/C2H6O/c1-2-3" Gaussian.initState " InChI=1S/C2H6O " =
        some st₂ ∧
      st₂.InChIFound = true ∧
      st₂.logFileInChI = strTrim " InChI=1S/C2H6O " ∧
      st₂.InChIMatch =
        (if strTrim " InChI=1S/C2H6O " == "InChI=1S/C2H6O/c1-2-3" then true
         else if strStartsWith "InChI=1S/C2H6O/c1-2-3" (strTrim " InChI=1S/C2H6O ")
           then true
         else Gaussian.initState.InChIMatch) :=
  identityMatch_cases "InChI=1S/C2H6O/c1-2-3" Gaussian.initState " InChI=1S/C2H6O "
    (by decide) (by decide)

lemma processLine_none_iff (uid : String) (st : ScanState) (l : String) :
    processLine uid st l = none ↔
      (failureKeys.any fun e => containsSub e (strTrim l)) = true := by
  simp only [processLine]
  by_cases h : (failureKeys.any fun e => containsSub e (strTrim l)) = true
  · simp [h]
  · simp only [h, if_false]
    constructor
    · intro hcon
      by_cases h2 : strStartsWith (strTrim l) "InChI=" = true <;>
        by_cases h3 : (strTrim l == uid) = true <;>
          by_cases h4 : strStartsWith uid (strTrim l) = true <;>
            simp [h2, h3, h4] at hcon
    · intro hcon; simp at hcon

lemma processLine_some_char (uid : String) (st : ScanState) (l : String)
    (st₂ : ScanState) (h : processLine uid st l = some st₂) :
    st₂.successKeysFound =
      st.successKeysFound.map (fun kv => (kv.1, kv.2 || containsSub kv.1 (strTrim l)))
    ∧ st₂.InChIFound = (st.InChIFound || strStartsWith (strTrim l) "InChI=")
    ∧ st₂.InChIMatch = (st.InChIMatch ||
        (strStartsWith (strTrim l) "InChI=" &&
          (strTrim l == uid || strStartsWith uid (strTrim l)))) := by
  simp only [processLine] at h
  by_cases h1 : (failureKeys.any fun e => containsSub e (strTrim l)) = true
  · simp [h1] at h
  · simp only [h1, if_false] at h
    by_cases h2 : strStartsWith (strTrim l) "InChI=" = true
    · by_cases h3 : (strTrim l == uid) = true
      · simp only [h2, h3, if_true] at h
        cases h
        simp [h2, h3]
      · by_cases h4 : strStartsWith uid (strTrim l) = true
        · simp only [h2, h3, h4, if_true, if_false] at h
          cases h
          simp [h2, h3, h4]
        · simp only [h2, h3, h4, if_true, if_false] at h
          cases h
          simp [h2, h3, h4]
    · simp only [h2, if_false] at h
      cases h
      simp [h2]

lemma scanLines_none_iff (uid : String) (lines : List String) :
    ∀ st : ScanState, scanLines uid st lines = none ↔
      ∃ l ∈ lines, (failureKeys.any fun e => containsSub e (strTrim l)) = true := by
  induction lines with
  | nil => intro st; simp [scanLines]
  | cons l rest ih =>
    intro st
    simp only [scanLines]
    cases hp : processLine uid st l with
    | none =>
      simp only [true_iff]
      exact ⟨l, List.mem_cons_self l rest, (processLine_none_iff uid st l).1 hp⟩
    | some st₂ =>
      rw [ih st₂]
      constructor
      · rintro ⟨x, hx, hfx⟩
        exact ⟨x, List.mem_cons_of_mem l hx, hfx⟩
      · rintro ⟨x, hx, hfx⟩
        rcases List.mem_cons.1 hx with hx | hx
        · subst hx
          exact absurd hp (by rw [(processLine_none_iff uid st x).2 hfx]; simp)
        · exact ⟨x, hx, hfx⟩

lemma scanLines_some_char (uid : String) (lines : List String) :
    ∀ st st₂ : ScanState, scanLines uid st lines = some st₂ →
      st₂.successKeysFound = st.successKeysFound.map
        (fun kv => (kv.1, kv.2 || lines.any (fun l => containsSub kv.1 (strTrim l))))
      ∧ st₂.InChIFound =
          (st.InChIFound || lines.any (fun l => strStartsWith (strTrim l) "InChI="))
      ∧ st₂.InChIMatch = (st.InChIMatch || lines.any (fun l =>
          strStartsWith (strTrim l) "InChI=" &&
            (strTrim l == uid || strStartsWith uid (strTrim l)))) := by
  induction lines with
  | nil =>
    intro st st₂ h
    simp only [scanLines, Option.some.injEq] at h
    subst h
    simp [Prod.mk.eta]
  | cons l rest ih =>
    intro st st₂ h
    simp only [scanLines] at h
    cases hp : processLine uid st l with
    | none => rw [hp] at h; exact absurd h (by simp)
    | some st₁ =>
      rw [hp] at h
      obtain ⟨hk1, hf1, hm1⟩ := processLine_some_char uid st l st₁ hp
      obtain ⟨hk2, hf2, hm2⟩ := ih st₁ st₂ h
      refine ⟨?_, ?_, ?_⟩
      · rw [hk2, hk1, List.map_map]
        simp only [List.any_cons, Function.comp]
        congr 1
        funext kv
        simp [Bool.or_assoc]
      · rw [hf2, hf1]
        simp [List.any_cons, Bool.or_assoc]
      · rw [hm2, hm1]
        simp [List.any_cons, Bool.or_assoc]

lemma all_map_snd (sk : List String) (g : String → Bool) :
    ((sk.map (fun key => (key, false))).map
      (fun kv : String × Bool => (kv.1, kv.2 || g kv.1))).all (fun kv => kv.2) =
    sk.all g := by
  induction sk with
  | nil => rfl
  | cons k rest ih =>
    simp only [List.map_cons, List.all_cons, Bool.false_or, ih]

lemma verifyOutputFile_some (lines : List String) (uid : String) :
    verifyOutputFile (some lines) uid =
      ((!(lines.any fun l => failureKeys.any fun e => containsSub e (strTrim l))) &&
       (successKeys.all fun e => lines.any fun l => containsSub e (strTrim l)) &&
       (lines.any fun l => strStartsWith (strTrim l) "InChI=") &&
       (lines.any fun l => strStartsWith (strTrim l) "InChI=" &&
          (strTrim l == uid || strStartsWith uid (strTrim l)))) := by
  unfold verifyOutputFile
  simp only [verifyOutputFileR]
  cases hscan : scanLines uid initState lines with
  | none =>
    have hfail : ∃ l ∈ lines, (failureKeys.any fun e => containsSub e (strTrim l)) = true :=
      (scanLines_none_iff uid lines initState).1 hscan
    have : (lines.any fun l => failureKeys.any fun e => containsSub e (strTrim l)) = true :=
      List.any_eq_true.2 hfail
    rw [this]
    rfl
  | some st =>
    have hnofail :
        (lines.any fun l => failureKeys.any fun e => containsSub e (strTrim l)) = false := by
      by_contra hne
      have : (lines.any fun l => failureKeys.any fun e => containsSub e (strTrim l)) = true := by
        revert hne; cases lines.any fun l => failureKeys.any fun e => containsSub e (strTrim l) <;> simp
      rw [(scanLines_none_iff uid lines initState).2 (List.any_eq_true.1 this)] at hscan
      exact absurd hscan (by simp)
    obtain ⟨hk, hf, hm⟩ := scanLines_some_char uid lines initState st hscan
    have hall : (st.successKeysFound.all fun kv => kv.2) =
        (successKeys.all fun e => lines.any fun l => containsSub e (strTrim l)) := by
      rw [hk]
      simp only [initState]
      exact all_map_snd successKeys (fun e => lines.any fun l => containsSub e (strTrim l))
    have hfound : st.InChIFound =
        (lines.any fun l => strStartsWith (strTrim l) "InChI=") := by
      rw [hf]; simp [initState]
    have hmatch : st.InChIMatch = (lines.any fun l =>
        strStartsWith (strTrim l) "InChI=" &&
          (strTrim l == uid || strStartsWith uid (strTrim l))) := by
      rw [hm]; simp [initState]
    show (match (firstSome (tailStatements st)).getD (.done false) with
          | .done b => b
          | .collisionCheck _ => false) = _
    rw [tail_eval st, hnofail]
    rw [hall] at *
    rw [hfound, hmatch]
    cases hA : (successKeys.all fun e => lines.any fun l => containsSub e (strTrim l)) <;>
      cases hB : (lines.any fun l => strStartsWith (strTrim l) "InChI=") <;>
        simp [hA, hB]

/-- Claim C1: the verifier succeeds exactly when the output file exists, no
stripped line contains a failure marker, every success marker occurs on some
line, some line starts with `"InChI="`, and some such line satisfies the
identity-match policy (exact equality or expected-starts-with-discovered);
moreover a line containing a failure marker forces a `false` verdict no
matter what else the file contains (the scan short-circuits there). -/
theorem verifyOutputFile_spec (file : Option (List String)) (uid : String) :
    (verifyOutputFile file uid = true ↔
      ∃ lines, file = some lines ∧
        (∀ l ∈ lines, ∀ e ∈ failureKeys, containsSub e (strTrim l) = false) ∧
        (∀ e ∈ successKeys, ∃ l ∈ lines, containsSub e (strTrim l) = true) ∧
        (∃ l ∈ lines, strStartsWith (strTrim l) "InChI=" = true) ∧
        (∃ l ∈ lines, (strStartsWith (strTrim l) "InChI=" &&
          (strTrim l == uid || strStartsWith uid (strTrim l))) = true))
    ∧ (∀ pre bad suf, file = some (pre ++ bad :: suf) →
        (∃ e ∈ failureKeys, containsSub e (strTrim bad) = true) →
        verifyOutputFile file uid = false) := by
  constructor
  · cases file with
    | none =>
      simp [verifyOutputFile, verifyOutputFileR]
    | some lines =>
      rw [verifyOutputFile_some lines uid]
      simp only [Bool.and_eq_true, Bool.not_eq_true', List.any_eq_false,
        List.all_eq_true, List.any_eq_true, Option.some.injEq, not_exists, not_and,
        Bool.not_eq_true]
      constructor
      · rintro ⟨⟨⟨h1, h2⟩, h3⟩, h4⟩
        exact ⟨lines, rfl, h1, h2, h3, h4⟩
      · rintro ⟨lines₂, rfl, h1, h2, h3, h4⟩
        exact ⟨⟨⟨h1, h2⟩, h3⟩, h4⟩
  · intro pre bad suf hEq hbad
    subst hEq
    rw [verifyOutputFile_some]
    have hany : ((pre ++ bad :: suf).any fun l =>
        failureKeys.any fun e => containsSub e (strTrim l)) = true := by
      refine List.any_eq_true.2 ⟨bad, ?_, List.any_eq_true.2 hbad⟩
      exact List.mem_append_right pre (List.mem_cons_self bad suf)
    rw [hany]
    rfl

theorem verifyOutputFile_spec_witness :
    verifyOutputFile
      (some ["Normal termination of Gaussian", " ERROR TERMINATION ", "InChI=1S/C"])
      "InChI=1S/C" = false :=
  (verifyOutputFile_spec
      (some ["Normal termination of Gaussian", " ERROR TERMINATION ", "InChI=1S/C"])
      "InChI=1S/C").2
    ["Normal termination of Gaussian"] " ERROR TERMINATION " ["InChI=1S/C"] rfl
    ⟨"ERROR TERMINATION", by decide, by decide⟩

lemma cycleEvents_zero (a : Nat) : cycleEvents a 0 = [] := rfl

lemma cycleEvents_succ (a n : Nat) :
    cycleEvents a (n + 1) =
      QMEvent.writeInput a :: QMEvent.runAttempt a :: cycleEvents (a + 1) n := by
  unfold cycleEvents
  rw [List.range'_succ]
  rfl

lemma attemptLoop_all_fail (runOK : Nat → Bool) :
    ∀ n a, (∀ j, a ≤ j → j < a + n → runOK j = false) →
      attemptLoop runOK a n = (cycleEvents a n, false) := by
  intro n
  induction n with
  | zero => intro a _; rfl
  | succ n ih =>
    intro a h
    unfold attemptLoop
    rw [h a (Nat.le_refl a) (by omega)]
    rw [ih (a + 1) (fun j hj1 hj2 => h j (by omega) (by omega))]
    rw [cycleEvents_succ]
    simp

lemma attemptLoop_first_success (runOK : Nat → Bool) :
    ∀ n a k, a ≤ k → k < a + n →
      (∀ j, a ≤ j → j < k → runOK j = false) → runOK k = true →
      attemptLoop runOK a n = (cycleEvents a (k + 1 - a), true) := by
  intro n
  induction n with
  | zero => intro a k h1 h2 _ _; omega
  | succ n ih =>
    intro a k h1 h2 hf hk
    unfold attemptLoop
    by_cases hak : a = k
    · subst hak
      rw [hk]
      have h1 : a + 1 - a = 1 := by omega
      rw [h1, cycleEvents_succ, cycleEvents_zero]
      simp
    · have haf : runOK a = false := hf a (Nat.le_refl a) (by omega)
      rw [haf]
      rw [ih (a + 1) k (by omega) (by omega) (fun j hj1 hj2 => hf j (by omega) hj2) hk]
      have h3 : k + 1 - a = (k + 1 - (a + 1)) + 1 := by omega
      rw [h3, cycleEvents_succ]
      simp

lemma attemptLoop_flag (runOK : Nat → Bool) :
    ∀ n a, (attemptLoop runOK a n).2 = true ↔
      ∃ j, a ≤ j ∧ j < a + n ∧ runOK j = true := by
  intro n
  induction n with
  | zero =>
    intro a
    simp only [attemptLoop]
    constructor
    · intro h; exact absurd h (by simp)
    · rintro ⟨j, hj1, hj2, _⟩; omega
  | succ n ih =>
    intro a
    unfold attemptLoop
    by_cases ha : runOK a = true
    · rw [ha]
      simp only [if_true]
      constructor
      · intro _; exact ⟨a, Nat.le_refl a, by omega, ha⟩
      · intro _; trivial
    · have ha' : runOK a = false := by revert ha; cases runOK a <;> simp
      rw [ha']
      simp only [Bool.false_eq_true, if_false]
      rw [ih (a + 1)]
      constructor
      · rintro ⟨j, hj1, hj2, hj3⟩
        exact ⟨j, by omega, by omega, hj3⟩
      · rintro ⟨j, hj1, hj2, hj3⟩
        rcases Nat.eq_or_lt_of_le hj1 with hEq | hlt
        · subst hEq; exact absurd hj3 (by rw [ha']; simp)
        · exact ⟨j, by omega, by omega, hj3⟩

/-- Claim C3: with no usable cached output, attempts run sequentially from 1; the
loop performs exactly one write/run cycle per attempt, stops at the first
attempt whose run verifies (returning the parse result), and the fatal
exception naming the molecule is raised exactly when every attempt up to
`maxAttempts` fails. -/
theorem generateQMData_retry (env : QMRun) (hc : env.cachedOK = false) :
    (∀ k, 1 ≤ k → k ≤ env.maxAttempts →
      (∀ j, 1 ≤ j → j < k → env.runOK j = false) → env.runOK k = true →
      generateQMData env =
        (QMEvent.createGeometry :: QMEvent.verifyCached ::
          (cycleEvents 1 k ++ [QMEvent.parseCall]),
         Except.ok env.parseResult))
    ∧ ((∀ j, 1 ≤ j → j ≤ env.maxAttempts → env.runOK j = false) →
      generateQMData env =
        (QMEvent.createGeometry :: QMEvent.verifyCached :: cycleEvents 1 env.maxAttempts,
         Except.error ("QM thermo calculation failed for " ++ env.inchi ++ ".")))
    ∧ ((∃ msg, (generateQMData env).2 = Except.error msg) ↔
        (∀ j, 1 ≤ j → j ≤ env.maxAttempts → env.runOK j = false)) := by
  refine ⟨?_, ?_, ?_⟩
  · intro k hk1 hk2 hf hk
    unfold generateQMData
    rw [hc]
    rw [attemptLoop_first_success env.runOK env.maxAttempts 1 k hk1 (by omega) hf hk]
    simp
  · intro hf
    unfold generateQMData
    rw [hc]
    rw [attemptLoop_all_fail env.runOK env.maxAttempts 1
      (fun j hj1 hj2 => hf j hj1 (by omega))]
    simp
  · unfold generateQMData
    rw [hc]
    simp only [Bool.false_eq_true, if_false]
    by_cases hflag : (attemptLoop env.runOK 1 env.maxAttempts).2 = true
    · rw [if_pos hflag]
      obtain ⟨j, hj1, hj2, hj3⟩ := (attemptLoop_flag env.runOK env.maxAttempts 1).1 hflag
      constructor
      · rintro ⟨msg, hmsg⟩
        exact absurd hmsg (by simp)
      · intro hall
        exact absurd hj3 (by rw [hall j hj1 (by omega)]; simp)
    · rw [if_neg hflag]
      constructor
      · intro _
        intro j hj1 hj2
        by_contra hne
        have hj3 : env.runOK j = true := by
          revert hne; cases env.runOK j <;> simp
        exact hflag ((attemptLoop_flag env.runOK env.maxAttempts 1).2 ⟨j, hj1, by omega, hj3⟩)
      · intro _
        exact ⟨"QM thermo calculation failed for " ++ env.inchi ++ ".", rfl⟩

theorem generateQMData_retry_witness :
    generateQMData envSecondTry =
      (QMEvent.createGeometry :: QMEvent.verifyCached ::
        (cycleEvents 1 2 ++ [QMEvent.parseCall]),
       Except.ok envSecondTry.parseResult) :=
  (generateQMData_retry envSecondTry rfl).1 2 (by decide) (by decide)
    (fun j h1 h2 => by
      have hj : j = 1 := by omega
      subst hj
      rfl)
    rfl

/-- Claim C4: when the pre-existing output already verifies, the orchestrator
writes no input file and launches no run: the only effects are the geometry
creation, the cache verification, and the parse, whose result is returned. -/
theorem generateQMData_cached_reuse (env : QMRun) (hc : env.cachedOK = true) :
    generateQMData env =
      ([QMEvent.createGeometry, QMEvent.verifyCached, QMEvent.parseCall],
       Except.ok env.parseResult)
    ∧ ∀ e ∈ (generateQMData env).1, e.isAttemptEffect = false := by
  have h : generateQMData env =
      ([QMEvent.createGeometry, QMEvent.verifyCached, QMEvent.parseCall],
       Except.ok env.parseResult) := by
    unfold generateQMData
    rw [hc]
    simp
  refine ⟨h, ?_⟩
  rw [h]
  intro e he
  fin_cases he <;> rfl

theorem generateQMData_cached_reuse_witness :
    generateQMData envCached =
      ([QMEvent.createGeometry, QMEvent.verifyCached, QMEvent.parseCall],
       Except.ok envCached.parseResult) :=
  (generateQMData_cached_reuse envCached rfl).1
